import Mathlib

/-!
Verification development for the Street Hunt backend (src/index.js).

The file shallowly embeds the data model and the state-computation engine of
the server: JavaScript request values, `parseInt` / `Number` coercions, the
`clamp` helper and room creation (POST /rooms), the zone-radius computation,
the haversine distance wrapper `distMeters`, the catch-detection loop, the
visibility projection, and the location-update guard (POST /location).

Modelling conventions:
- JavaScript numbers that can be `NaN` are `Option ℤ` / `Option ℚ` with
  `none` = NaN; SQL NULL columns are `Option _` with `none` = NULL.
- The result of `distMeters` is `Option ℚ` with `none` = `Infinity`
  (the only non-finite value `distMeters` returns, from its null guard).
- The floating-point haversine core (src/index.js lines 63-73, built from
  `Math.sin`/`Math.cos`/`Math.atan2`/`Math.sqrt`) is abstracted as a
  parameter `hav : ℚ → ℚ → ℚ → ℚ → ℚ`: every IEEE double is a rational
  number, and the engine consumes distances only through order comparisons
  and `Math.round`, so nothing below depends on the trigonometry itself.
- `Math.floor(a / b)` on integer floats is embedded as `⌊(a : ℚ) / b⌋`
  (exact rational division followed by floor).
- JS object iteration over the players map is embedded as list traversal:
  the keys are UUID strings, so `for ... in` enumerates them in insertion
  order, which is the order of the snapshot list.
-/

namespace StreetHunt

/-- A JSON/JavaScript request value, as far as the server inspects one:
`undefined`, `null`, a (finite) number, a string, or a boolean. -/
inductive JVal where
  | undef
  | null
  | num (q : ℚ)
  | str (s : String)
  | boolean (b : Bool)
deriving DecidableEq

/-- JavaScript truthiness of a request value (`undefined`, `null`, `0`,
`""` and `false` are falsy). -/
def truthy : JVal → Bool
  | .undef => false
  | .null => false
  | .num q => q ≠ 0
  | .str s => s ≠ ("")
  | .boolean b => b

/-- The JavaScript `a || b` default idiom, restricted to request values. -/
def jsOr (a b : JVal) : JVal := if truthy a then a else b

/-- Whitespace characters skipped by `parseInt` / `Number`. -/
def isWs (ch : Char) : Bool :=
  ch = ' ' || ch = '\t' || ch = '\n' || ch = '\r'

/-- Numeric value of a list of decimal digit characters. -/
def digitsVal (ds : List Char) : ℤ :=
  ds.foldl (fun acc ch => acc * 10 + ((ch.toNat : ℤ) - 48)) 0

/-- JavaScript `parseInt` on a string (base 10): skip leading whitespace,
read an optional sign and then the longest prefix of decimal digits; if no
digit is found the result is NaN (`none`).  (The hexadecimal `0x` prefix is
not modelled; no caller of `parseInt` in the source is handed one.) -/
def parseIntStr (s : String) : Option ℤ :=
  let cs := s.toList.dropWhile isWs
  let sgncs : ℤ × List Char :=
    match cs with
    | '-' :: t => (-1, t)
    | '+' :: t => (1, t)
    | _ => (1, cs)
  let ds := sgncs.2.takeWhile Char.isDigit
  if ds.isEmpty then none else some (sgncs.1 * digitsVal ds)

/-- Truncation of a rational toward zero, the value of `parseInt` on the
decimal rendering of a finite number (`Int.tdiv` rounds toward zero). -/
def truncQ (q : ℚ) : ℤ := q.num.tdiv q.den

/-- JavaScript `parseInt` applied to an arbitrary request value: the value
is first converted to a string (`"undefined"`, `"null"`, `"true"` … parse
to NaN).  For a number argument this model truncates toward zero, which is
exact whenever the decimal rendering of the number is non-exponential (the
regime exercised by every claim). -/
def parseIntJs : JVal → Option ℤ
  | .num q => some (truncQ q)
  | .str s => parseIntStr s
  | .boolean _ => none
  | .undef => none
  | .null => none

/-- JavaScript `Number` conversion of a string: leading/trailing whitespace
is ignored, the empty (or all-whitespace) string is `0`, and a decimal
literal `[sign] digits [. digits]` is its rational value; anything else is
NaN (`none`).  (Exponential and hexadecimal literals are not modelled; no
claim exercises them.) -/
def strToNumber (s : String) : Option ℚ :=
  let cs := (s.toList.dropWhile isWs).reverse.dropWhile isWs |>.reverse
  if cs.isEmpty then some 0 else
  let sgncs : ℚ × List Char :=
    match cs with
    | '-' :: t => (-1, t)
    | '+' :: t => (1, t)
    | _ => (1, cs)
  let ip := sgncs.2.takeWhile Char.isDigit
  let rest := sgncs.2.drop ip.length
  match rest with
  | [] => if ip.isEmpty then none else some (sgncs.1 * (digitsVal ip : ℚ))
  | '.' :: fp =>
    if fp.all Char.isDigit ∧ ¬(ip.isEmpty ∧ fp.isEmpty) then
      some (sgncs.1 * ((digitsVal ip : ℚ) + (digitsVal fp : ℚ) / ((10 : ℚ) ^ fp.length)))
    else none
  | _ => none

/-- JavaScript `Number` coercion (`ToNumber`) of a request value.  Note
`Number(null) = 0` and `Number(true) = 1`. -/
def jsToNumber : JVal → Option ℚ
  | .undef => none
  | .null => some 0
  | .num q => some q
  | .str s => strToNumber s
  | .boolean b => some (if b then 1 else 0)

/-- The global JavaScript `isFinite`, which coerces its argument with
`ToNumber` first; in this model every non-NaN coercion result is finite. -/
def isFiniteJs (v : JVal) : Bool := (jsToNumber v).isSome

/-- JavaScript `Math.min` on possibly-NaN numbers (NaN propagates). -/
def jsMinI : Option ℤ → Option ℤ → Option ℤ
  | some a, some b => some (min a b)
  | _, _ => none

/-- JavaScript `Math.max` on possibly-NaN numbers (NaN propagates). -/
def jsMaxI : Option ℤ → Option ℤ → Option ℤ
  | some a, some b => some (max a b)
  | _, _ => none

/-- The `clamp` helper (src/index.js line 58):
`clamp = (v,min,max) => Math.max(min, Math.min(max, v))`.  NaN propagates
through both `Math.min` and `Math.max`. -/
def clamp (v : Option ℤ) (lo hi : ℤ) : Option ℤ :=
  jsMaxI (some lo) (jsMinI (some hi) v)

/-- POST /rooms (src/index.js lines 79-87): the three stored configuration
values.  `none` is a NaN result of `parseInt`, which SQLite stores as NULL.
`startRadius = clamp(parseInt(body.startRadius || 800), 20, 100000)`,
`shrinkStepSec = clamp(parseInt(body.shrinkStepSec || 20), 1, 86400)`,
`shrinkAmount = clamp(parseInt(body.shrinkAmount || 50), 1, 100000)`. -/
def createRoomConfig (startRadius shrinkStepSec shrinkAmount : JVal) :
    Option ℤ × Option ℤ × Option ℤ :=
  (clamp (parseIntJs (jsOr startRadius (.num 800))) 20 100000,
   clamp (parseIntJs (jsOr shrinkStepSec (.num 20))) 1 86400,
   clamp (parseIntJs (jsOr shrinkAmount (.num 50))) 1 100000)

/-- A rooms-table row.  Columns are nullable (`none` = SQL NULL); a normal
room created through POST /rooms has all three config fields set. -/
structure Room where
  code : String
  startRadius : Option ℤ
  shrinkStepSec : Option ℤ
  shrinkAmount : Option ℤ
  startedAt : Option ℤ
deriving DecidableEq

/-- The store invariant for rooms produced by the HTTP API with numeric
input: config fields clamped into their ranges and `startedAt`, when set,
a positive `Date.now()` timestamp. -/
def RoomValid (r : Room) : Prop :=
  (∃ n, r.startRadius = some n ∧ 20 ≤ n ∧ n ≤ 100000) ∧
  (∃ s, r.shrinkStepSec = some s ∧ 1 ≤ s ∧ s ≤ 86400) ∧
  (∃ m, r.shrinkAmount = some m ∧ 1 ≤ m ∧ m ≤ 100000) ∧
  (r.startedAt = none ∨ ∃ t, r.startedAt = some t ∧ 0 < t)

/-- Zone radius computation (src/index.js lines 153-159).
`zoneRadius = Number(room.startRadius || 800)`; when `room.startedAt` is
truthy (a nonzero timestamp), `elapsedMs = now - startedAt`,
`steps = Math.floor(elapsedMs / (Math.max(1, room.shrinkStepSec) * 1000))`
(`Math.max(1, null)` is `1` since `null` coerces to `0`), and
`zoneRadius = Math.max(20, zoneRadius - steps * (room.shrinkAmount || 50))`.
`Math.floor` of the exact quotient is integer division `/` (Euclidean,
hence floor division since the divisor `stepMs` is always positive). -/
def zoneRadius (room : Room) (nowTs : ℤ) : ℤ :=
  let z : ℤ := match room.startRadius with
    | some n => if n = 0 then 800 else n
    | none => 800
  match room.startedAt with
  | some t =>
    if t = 0 then z
    else
      let elapsedMs : ℤ := nowTs - t
      let stepMs : ℤ := (max 1 (room.shrinkStepSec.getD 0)) * 1000
      let steps : ℤ := elapsedMs / stepMs
      let amount : ℤ := match room.shrinkAmount with
        | some m => if m = 0 then 50 else m
        | none => 50
      max 20 (z - steps * amount)
  | none => z

/-- Player roles; POST /join stores exactly one of the two strings
`'hunter'` and `'runner'`. -/
inductive Role where
  | hunter
  | runner
deriving DecidableEq

/-- Player statuses; the column defaults to `'ready'` and the engine only
ever writes `'caught'`. -/
inductive Status where
  | ready
  | caught
deriving DecidableEq

/-- An entry of the in-memory `players` map built by GET /state
(src/index.js lines 172-184) from the players/locations left join:
`lat`/`lng` are `null` when the player has no location row (or a stored
NULL coordinate). -/
structure Player where
  id : String
  name : String
  role : Role
  status : Status
  lastSeen : Option ℤ
  lat : Option ℚ
  lng : Option ℚ
  locTs : Option ℤ
deriving DecidableEq

/-- The distance wrapper `distMeters` (src/index.js lines 61-74): if any of
the four coordinate components is `null`/`undefined` the result is
`Infinity` (`none`); otherwise it is the floating-point haversine value,
abstracted here as `hav`. -/
def distMeters (hav : ℚ → ℚ → ℚ → ℚ → ℚ)
    (aLat aLng bLat bLng : Option ℚ) : Option ℚ :=
  match aLat, aLng, bLat, bLng with
  | some p, some q, some r, some s => some (hav p q r s)
  | _, _, _, _ => none

/-- The comparison `d <= catchMeters` of a distance (`none` = Infinity)
with a parsed threshold (`none` = NaN): false whenever either side is
non-finite. -/
def leThresh (d : Option ℚ) (c : Option ℤ) : Bool :=
  match d, c with
  | some dv, some cv => dv ≤ (cv : ℚ)
  | _, _ => false

/-- The per-pair catch condition of the detection loop (src/index.js lines
191-195): the two ids differ, the target is a runner with a known `lat`,
and `distMeters` is within the threshold. -/
def catchHit (hav : ℚ → ℚ → ℚ → ℚ → ℚ) (c : Option ℤ) (a b : Player) : Bool :=
  decide (a.id ≠ b.id) && decide (b.role = .runner) && b.lat.isSome &&
    leThresh (distMeters hav a.lat a.lng b.lat b.lng) c

/-- A newly detected catch (src/index.js line 196): the pair hits and the
runner is not already caught, so the status mutation and the DB write fire. -/
def newlyHit (hav : ℚ → ℚ → ℚ → ℚ → ℚ) (c : Option ℤ) (a b : Player) : Bool :=
  catchHit hav c a b && decide (b.status ≠ .caught)

/-- Setting a runner caught (src/index.js line 197). -/
def markCaught (b : Player) : Player := { b with status := .caught }

/-- Inner loop of catch detection for one hunter `a` (src/index.js lines
190-201): walk the players map in order; on a new hit, mutate the entry to
`caught` and issue a DB write for that id. -/
def innerLoop (hav : ℚ → ℚ → ℚ → ℚ → ℚ) (c : Option ℤ) (a : Player) :
    List Player → List Player × List String
  | [] => ([], [])
  | b :: rest =>
    let hit := newlyHit hav c a b
    let res := innerLoop hav c a rest
    ((if hit then markCaught b else b) :: res.1,
     (if hit then [b.id] else []) ++ res.2)

/-- The outer guard of the detection loop (src/index.js line 189): `a` is a
hunter with a known `lat`. -/
def hunterActive (a : Player) : Bool :=
  decide (a.role = .hunter) && a.lat.isSome

/-- Outer loop of catch detection (src/index.js lines 187-202).  The first
argument enumerates the candidate hunters (the snapshot: detection mutates
only runner statuses, so the hunter fields read by the loop are those of
the snapshot); the second is the evolving players map.  Returns the updated
map and the list of ids written through to the store, in order. -/
def catchLoop (hav : ℚ → ℚ → ℚ → ℚ → ℚ) (c : Option ℤ) :
    List Player → List Player → List Player × List String
  | [], cur => (cur, [])
  | a :: rest, cur =>
    if hunterActive a then
      let step := innerLoop hav c a cur
      let res := catchLoop hav c rest step.1
      (res.1, step.2 ++ res.2)
    else catchLoop hav c rest cur

/-- The whole catch-detection pass over a snapshot. -/
def catchPass (hav : ℚ → ℚ → ℚ → ℚ → ℚ) (c : Option ℤ) (ps : List Player) :
    List Player × List String :=
  catchLoop hav c ps ps

/-- Map lookup `players[id]` over the snapshot list. -/
def lookupP (ps : List Player) (i : String) : Option Player :=
  ps.find? (fun p => p.id == i)

/-- A JSON number field value as the handler computes it: `null`, a rounded
integer, or `Infinity` (which `res.json` serialises as `null`). -/
inductive JsOut where
  | jnull
  | jint (n : ℤ)
  | jinf
deriving DecidableEq

/-- `Math.round` on a finite number: `Math.round(x) = ⌊x + 1/2⌋`, computed
here on the numerator/denominator representation (`x + 1/2` is
`(2 num + den) / (2 den)`, and integer division by the positive `2 den` is
floor division). -/
def roundJs (q : ℚ) : ℤ := (2 * q.num + (q.den : ℤ)) / (2 * (q.den : ℤ))

/-- `Math.round` applied to a `distMeters` result: `Infinity` stays
`Infinity`. -/
def jround : Option ℚ → JsOut
  | none => .jinf
  | some q => .jint (roundJs q)

/-- What `JSON.stringify` (inside `res.json`) emits for a number field:
non-finite numbers serialise as `null`. -/
def jsonNumber : JsOut → Option ℤ
  | .jnull => none
  | .jint n => some n
  | .jinf => none

/-- One emitted player view (src/index.js lines 224-264).  Fields of type
`Option _` at the outer layer model presence: `none` means the key is
absent from the emitted object. -/
structure PView where
  id : String
  name : String
  role : Role
  status : Status
  lat : Option (Option ℚ) := none
  lng : Option (Option ℚ) := none
  lastSeen : Option (Option ℤ) := none
  distanceToViewer : Option JsOut := none
  distanceToRunner : Option JsOut := none
deriving DecidableEq

/-- The visibility projection for one target player `p` from the point of
view of `viewer` (src/index.js lines 224-264): anonymous viewers get the
minimal view; a hunter viewer sees everyone with coordinates and
`distanceToViewer`; a runner viewer sees itself with coordinates, hunters
without coordinates but with `distanceToRunner`, and other runners
minimally.  (The local `d` of line 250, derived from the internal
`_nearestOpp` field, is dead code: the emitted `distanceToRunner` is the
independent expression of line 256.) -/
def projectOne (hav : ℚ → ℚ → ℚ → ℚ → ℚ) (viewer : Option Player)
    (p : Player) : PView :=
  match viewer with
  | none =>
    { id := p.id, name := p.name, role := p.role, status := p.status }
  | some v =>
    if v.role = .hunter then
      { id := p.id, name := p.name, role := p.role, status := p.status,
        lat := some p.lat, lng := some p.lng, lastSeen := some p.lastSeen,
        distanceToViewer :=
          some (if p.lat.isSome && v.lat.isSome then
                  jround (distMeters hav v.lat v.lng p.lat p.lng)
                else .jnull) }
    else if p.id = v.id then
      { id := p.id, name := p.name, role := p.role, status := p.status,
        lat := some p.lat, lng := some p.lng, lastSeen := some p.lastSeen }
    else if p.role = .hunter then
      { id := p.id, name := p.name, role := p.role, status := p.status,
        distanceToRunner :=
          some (if v.lat.isSome && p.lat.isSome then
                  jround (distMeters hav v.lat v.lng p.lat p.lng)
                else .jnull),
        lastSeen := some p.lastSeen }
    else
      { id := p.id, name := p.name, role := p.role, status := p.status,
        lastSeen := some p.lastSeen }

/-- Query parameters of GET /state/:room. -/
structure StateQuery where
  playerId : Option String := none
  catchMeters : Option String := none
deriving DecidableEq

/-- Viewer id resolution (src/index.js line 149):
`req.query.playerId || null` (an absent or empty parameter is no viewer). -/
def viewerIdOf (q : Option String) : Option String :=
  match q with
  | none => none
  | some s => if s = ("") then none else some s

/-- Threshold parsing (src/index.js line 169):
`parseInt(req.query.catchMeters || '30')`; query parameters are strings, an
absent or empty one falls back to the string `'30'`.  The result is `none`
(NaN) when the present parameter has no leading integer. -/
def catchMetersOf (q : Option String) : Option ℤ :=
  parseIntStr (match q with
    | none => ("30")
    | some s => if s = ("") then ("30") else s)

/-- The body of a GET /state/:room response, as far as the claims inspect
it. -/
structure StateResp where
  zoneRadius : ℤ
  players : List PView
deriving DecidableEq

/-- The state computation of GET /state/:room (src/index.js lines 147-279)
over a loaded room row and snapshot: compute the zone radius, parse the
threshold, run catch detection (returning the write-through list as the
second component), resolve the viewer against the post-detection map, and
project every player for that viewer. -/
def stateResponse (hav : ℚ → ℚ → ℚ → ℚ → ℚ) (room : Room)
    (rows : List Player) (q : StateQuery) (nowTs : ℤ) :
    StateResp × List String :=
  let cp := catchPass hav (catchMetersOf q.catchMeters) rows
  let viewer := (viewerIdOf q.playerId).bind (lookupP cp.1)
  ({ zoneRadius := zoneRadius room nowTs,
     players := cp.1.map (projectOne hav viewer) }, cp.2)

/-- POST /location (src/index.js lines 129-142): the request is rejected
with 400 unless `playerId` is truthy and both coordinates pass the global
`isFinite` (which coerces with `ToNumber`, so `null` passes as `0`).
Accepted coordinates are bound as-is to the SQLite row: `null` is stored as
NULL, numbers as themselves, numeric strings through REAL affinity;
booleans are not bindable (the driver throws, no row is written, modelled
as `none`).  The result is `some (lat, lng)` of the stored row, or `none`
when no row is written. -/
def postLocation (playerId lat lng : JVal) : Option (Option ℚ × Option ℚ) :=
  let bindCoord : JVal → Option (Option ℚ) := fun v =>
    match v with
    | .null => some none
    | .num q => some (some q)
    | .str s => (strToNumber s).map some
    | .boolean _ => none
    | .undef => none
  if truthy playerId && isFiniteJs lat && isFiniteJs lng then
    match bindCoord lat, bindCoord lng with
    | some la, some ln => some (la, ln)
    | _, _ => none
  else none

/-- A row of the players/locations left join (src/index.js lines 162-165):
player columns plus nullable location columns (all NULL when the player has
no location row). -/
structure DBRow where
  id : String
  name : String
  role : Role
  status : Option Status
  lastSeen : Option ℤ
  lat : Option ℚ
  lng : Option ℚ
  ts : Option ℤ
deriving DecidableEq

/-- The JavaScript `x || null` idiom on a nullable integer column (a `0`
value also collapses to `null`). -/
def orNull (v : Option ℤ) : Option ℤ :=
  match v with
  | some x => if x = 0 then none else some x
  | none => none

/-- The players-map entry built from a join row (src/index.js lines
174-183): `status: r.status || 'ready'`, `lastSeen: r.lastSeen || null`,
`lat`/`lng` kept when not null/undefined, `locTs: r.ts || null`. -/
def toPlayer (r : DBRow) : Player :=
  { id := r.id, name := r.name, role := r.role,
    status := r.status.getD .ready,
    lastSeen := orNull r.lastSeen,
    lat := r.lat, lng := r.lng,
    locTs := orNull r.ts }

/-- The left-join row for a player and its (optional) locations row, whose
coordinate columns may themselves be NULL. -/
def mkRow (id name : String) (role : Role) (status : Option Status)
    (lastSeen : Option ℤ) (loc : Option (Option ℚ × Option ℚ × ℤ)) : DBRow :=
  { id := id, name := name, role := role, status := status,
    lastSeen := lastSeen,
    lat := match loc with | none => none | some l => l.1,
    lng := match loc with | none => none | some l => l.2.1,
    ts := match loc with | none => none | some l => some l.2.2 }

/-- Whether a specific hunter `a` catches target `b` in this pass (outer
guard plus pair condition), independent of `b`'s current status. -/
def hitBy (hav : ℚ → ℚ → ℚ → ℚ → ℚ) (c : Option ℤ) (a b : Player) : Bool :=
  hunterActive a && catchHit hav c a b

/-- Whether any hunter of the snapshot catches `b` in this pass. -/
def caughtAfter (hav : ℚ → ℚ → ℚ → ℚ → ℚ) (c : Option ℤ)
    (hs : List Player) (b : Player) : Bool :=
  hs.any (fun a => hitBy hav c a b)

/-- The per-element effect of one hunter's inner loop. -/
def hitUpd (hav : ℚ → ℚ → ℚ → ℚ → ℚ) (c : Option ℤ) (a b : Player) : Player :=
  if newlyHit hav c a b then markCaught b else b

/-- The per-element effect of the whole pass on statuses. -/
def afterPass (hav : ℚ → ℚ → ℚ → ℚ → ℚ) (c : Option ℤ)
    (hs : List Player) (b : Player) : Player :=
  if caughtAfter hav c hs b then markCaught b else b

/-- Whether a possibly-NULL stored integer lies in a closed range (a NULL
value lies in no range). -/
def storedInRange (v : Option ℤ) (lo hi : ℤ) : Bool :=
  match v with
  | some n => lo ≤ n && n ≤ hi
  | none => false

/-- A degenerate instantiation of the haversine core, usable to evaluate
the engine on concrete snapshots (the engine is proved correct for every
`hav`). -/
def havZero : ℚ → ℚ → ℚ → ℚ → ℚ := fun _ _ _ _ => 0

/-- A started sample room with the configuration of the end-to-end
scenario of the specification. -/
def sampleRoom : Room :=
  { code := ("A"), startRadius := some 800, shrinkStepSec := some 20,
    shrinkAmount := some 50, startedAt := some 1000 }

/-- A sample hunter with a known location. -/
def sampleHunter : Player :=
  { id := ("H1"), name := ("h"), role := .hunter, status := .ready,
    lastSeen := none, lat := some 10, lng := some 10, locTs := none }

/-- A sample runner with a known location. -/
def sampleRunner : Player :=
  { id := ("R1"), name := ("r"), role := .runner, status := .ready,
    lastSeen := none, lat := some 10, lng := some 10, locTs := none }

/-- A sample hunter whose longitude is unknown (its latitude was written
through the null-coordinate gap of POST /location). -/
def sampleHalfHunter : Player :=
  { id := ("H2"), name := ("g"), role := .hunter, status := .ready,
    lastSeen := none, lat := some 10, lng := none, locTs := none }

/-- A sample runner that is already caught. -/
def sampleCaught : Player :=
  { id := ("R2"), name := ("c"), role := .runner, status := .caught,
    lastSeen := none, lat := some 10, lng := some 10, locTs := none }

/-! ## Bridging lemmas: integer division as floor -/

/-- Integer division by a positive divisor is the floor of the exact
rational quotient, i.e. the `Math.floor(a / b)` of the source. -/
theorem intDiv_eq_floor (a b : ℤ) (hb : 0 < b) :
    a / b = ⌊(a : ℚ) / (b : ℚ)⌋ := by
  have hbn : ((b.toNat : ℕ) : ℤ) = b := Int.toNat_of_nonneg hb.le
  have hq : ((b.toNat : ℕ) : ℚ) = (b : ℚ) := by
    exact_mod_cast congrArg (fun z : ℤ => (z : ℚ)) hbn
  rw [← hq, Rat.floor_intCast_div_natCast a b.toNat, hbn]

/-- `roundJs` is rounding half-up: `Math.round(x) = ⌊x + 1/2⌋`. -/
theorem roundJs_eq_floor (q : ℚ) : roundJs q = ⌊q + 1 / 2⌋ := by
  have hdp : 0 < q.den := Nat.pos_of_ne_zero q.den_nz
  have hd : (0 : ℤ) < 2 * (q.den : ℤ) := by omega
  have hd0 : ((q.den : ℕ) : ℚ) ≠ 0 := by exact_mod_cast q.den_nz
  have hnum : (q.num : ℚ) = q * ((q.den : ℕ) : ℚ) :=
    (div_eq_iff hd0).mp (Rat.num_div_den q)
  have hE : ((2 * q.num + (q.den : ℤ) : ℤ) : ℚ) / ((2 * (q.den : ℤ) : ℤ) : ℚ)
      = q + 1 / 2 := by
    rw [div_eq_iff (by push_cast; exact mul_ne_zero two_ne_zero hd0)]
    push_cast
    rw [hnum]
    ring
  rw [roundJs, intDiv_eq_floor _ _ hd, hE]

/-! ## Catch-detection pass: characterization -/





theorem markCaught_id (b : Player) : (markCaught b).id = b.id := rfl

theorem markCaught_status (b : Player) : (markCaught b).status = .caught := rfl

theorem markCaught_of_caught {b : Player} (h : b.status = .caught) :
    markCaught b = b := by
  cases b
  cases h
  rfl

theorem markCaught_idem (b : Player) :
    markCaught (markCaught b) = markCaught b := rfl

theorem catchHit_markCaught (hav : ℚ → ℚ → ℚ → ℚ → ℚ) (c : Option ℤ)
    (a b : Player) : catchHit hav c a (markCaught b) = catchHit hav c a b := rfl

theorem caughtAfter_markCaught (hav : ℚ → ℚ → ℚ → ℚ → ℚ) (c : Option ℤ)
    (hs : List Player) (b : Player) :
    caughtAfter hav c hs (markCaught b) = caughtAfter hav c hs b := rfl

theorem hitUpd_id (hav : ℚ → ℚ → ℚ → ℚ → ℚ) (c : Option ℤ) (a b : Player) :
    (hitUpd hav c a b).id = b.id := by
  unfold hitUpd
  split <;> rfl

theorem afterPass_id (hav : ℚ → ℚ → ℚ → ℚ → ℚ) (c : Option ℤ)
    (hs : List Player) (b : Player) : (afterPass hav c hs b).id = b.id := by
  unfold afterPass
  split <;> rfl

/-- The already-caught check only matters when the target is caught, and
marking is then a no-op: `hitUpd` coincides with the status-free test. -/
theorem hitUpd_eq (hav : ℚ → ℚ → ℚ → ℚ → ℚ) (c : Option ℤ) (a b : Player) :
    hitUpd hav c a b = (if catchHit hav c a b then markCaught b else b) := by
  unfold hitUpd newlyHit
  by_cases hs : b.status = .caught
  · simp [hs, markCaught_of_caught hs]
  · simp [hs]

theorem innerLoop_fst (hav : ℚ → ℚ → ℚ → ℚ → ℚ) (c : Option ℤ) (a : Player) :
    ∀ l : List Player, (innerLoop hav c a l).1 = l.map (hitUpd hav c a)
  | [] => rfl
  | b :: rest => by
    simp only [innerLoop, List.map_cons, innerLoop_fst hav c a rest, hitUpd]

theorem innerLoop_snd (hav : ℚ → ℚ → ℚ → ℚ → ℚ) (c : Option ℤ) (a : Player) :
    ∀ l : List Player,
      (innerLoop hav c a l).2 = (l.filter (newlyHit hav c a)).map Player.id
  | [] => rfl
  | b :: rest => by
    simp only [innerLoop, innerLoop_snd hav c a rest]
    by_cases h : newlyHit hav c a b = true
    · simp [h]
    · simp [h, List.filter_cons]

theorem afterPass_cons_active {a : Player} (hav : ℚ → ℚ → ℚ → ℚ → ℚ)
    (c : Option ℤ) (hs : List Player) (ha : hunterActive a = true)
    (b : Player) :
    afterPass hav c hs (hitUpd hav c a b) = afterPass hav c (a :: hs) b := by
  rw [hitUpd_eq]
  by_cases hc : catchHit hav c a b = true
  · rw [if_pos hc]
    unfold afterPass
    rw [caughtAfter_markCaught]
    have hcons : caughtAfter hav c (a :: hs) b = true := by
      simp [caughtAfter, hitBy, ha, hc]
    rw [hcons]
    split <;> simp [markCaught_idem]
  · rw [if_neg hc]
    unfold afterPass
    have hcons : caughtAfter hav c (a :: hs) b = caughtAfter hav c hs b := by
      simp [caughtAfter, hitBy, hc]
    rw [hcons]

theorem afterPass_cons_inactive {a : Player} (hav : ℚ → ℚ → ℚ → ℚ → ℚ)
    (c : Option ℤ) (hs : List Player) (ha : ¬hunterActive a = true)
    (b : Player) : afterPass hav c hs b = afterPass hav c (a :: hs) b := by
  have ha2 : hunterActive a = false := by
    cases h : hunterActive a
    · rfl
    · exact absurd h ha
  unfold afterPass
  have hcons : caughtAfter hav c (a :: hs) b = caughtAfter hav c hs b := by
    simp [caughtAfter, hitBy, ha2]
  rw [hcons]

/-- The map produced by the pass: every player's status is updated by
`afterPass` over the hunters of the snapshot. -/
theorem catchLoop_fst (hav : ℚ → ℚ → ℚ → ℚ → ℚ) (c : Option ℤ) :
    ∀ (hs cur : List Player),
      (catchLoop hav c hs cur).1 = cur.map (afterPass hav c hs)
  | [], cur => by
    have h : cur.map (afterPass hav c []) = cur.map (fun b => b) :=
      List.map_congr_left fun b _ => by simp [afterPass, caughtAfter]
    simp [catchLoop, h]
  | a :: hs, cur => by
    by_cases ha : hunterActive a = true
    · simp only [catchLoop, if_pos ha]
      rw [catchLoop_fst hav c hs, innerLoop_fst, List.map_map]
      exact List.map_congr_left fun b _ =>
        afterPass_cons_active hav c hs ha b
    · simp only [catchLoop, if_neg ha]
      rw [catchLoop_fst hav c hs]
      exact List.map_congr_left fun b _ =>
        afterPass_cons_inactive hav c hs ha b

theorem afterPass_of_hit {hav : ℚ → ℚ → ℚ → ℚ → ℚ} {c : Option ℤ}
    {hs : List Player} {b : Player} (h : caughtAfter hav c hs b = true) :
    afterPass hav c hs b = markCaught b := by
  unfold afterPass
  rw [h]
  rfl

theorem afterPass_of_miss {hav : ℚ → ℚ → ℚ → ℚ → ℚ} {c : Option ℤ}
    {hs : List Player} {b : Player} (h : caughtAfter hav c hs b = false) :
    afterPass hav c hs b = b := by
  unfold afterPass
  rw [h]
  rfl

theorem afterPass_status_of_caught {hav : ℚ → ℚ → ℚ → ℚ → ℚ} {c : Option ℤ}
    {hs : List Player} {b : Player} (h : b.status = .caught) :
    (afterPass hav c hs b).status = .caught := by
  unfold afterPass
  split
  · rfl
  · exact h

theorem hitUpd_status_ne (hav : ℚ → ℚ → ℚ → ℚ → ℚ) (c : Option ℤ)
    (a b : Player) :
    (hitUpd hav c a b).status ≠ .caught ↔
      newlyHit hav c a b = false ∧ b.status ≠ .caught := by
  unfold hitUpd
  cases h : newlyHit hav c a b
  · simp
  · simp [markCaught_status]

theorem caughtAfter_hitUpd (hav : ℚ → ℚ → ℚ → ℚ → ℚ) (c : Option ℤ)
    (hs : List Player) (a b : Player) :
    caughtAfter hav c hs (hitUpd hav c a b) = caughtAfter hav c hs b := by
  unfold hitUpd
  split
  · rw [caughtAfter_markCaught]
  · rfl

theorem map_id_hitUpd (hav : ℚ → ℚ → ℚ → ℚ → ℚ) (c : Option ℤ) (a : Player)
    (cur : List Player) :
    (cur.map (hitUpd hav c a)).map Player.id = cur.map Player.id := by
  rw [List.map_map]
  exact List.map_congr_left fun b _ => hitUpd_id hav c a b

/-- Membership in the write-through list: an id is written exactly when it
belongs to a not-yet-caught target that some active hunter of the pass
catches. -/
theorem catchLoop_writes_mem (hav : ℚ → ℚ → ℚ → ℚ → ℚ) (c : Option ℤ) :
    ∀ (hs cur : List Player) (bId : String),
      bId ∈ (catchLoop hav c hs cur).2 ↔
        ∃ b ∈ cur, b.id = bId ∧ b.status ≠ .caught ∧
          caughtAfter hav c hs b = true
  | [], cur, bId => by
    simp [catchLoop, caughtAfter]
  | a :: hs, cur, bId => by
    have hsplit : ∀ b : Player, caughtAfter hav c (a :: hs) b
        = (hitBy hav c a b || caughtAfter hav c hs b) := fun b => by
      simp [caughtAfter]
    by_cases ha : hunterActive a = true
    · simp only [catchLoop, if_pos ha, List.mem_append]
      rw [innerLoop_snd, catchLoop_writes_mem hav c hs, innerLoop_fst]
      constructor
      · rintro (hw | hw)
        · rcases List.mem_map.mp hw with ⟨b, hbf, hid⟩
          rcases List.mem_filter.mp hbf with ⟨hb, hnew⟩
          have hparts : catchHit hav c a b = true ∧ b.status ≠ .caught := by
            have h2 := hnew
            unfold newlyHit at h2
            simpa using h2
          refine ⟨b, hb, hid, hparts.2, ?_⟩
          rw [hsplit b]
          simp [hitBy, ha, hparts.1]
        · rcases hw with ⟨b2, hb2, hid2, hstat2, hafter2⟩
          rcases List.mem_map.mp hb2 with ⟨b, hb, rfl⟩
          rcases (hitUpd_status_ne hav c a b).mp hstat2 with ⟨hnf, hstat⟩
          rw [caughtAfter_hitUpd] at hafter2
          refine ⟨b, hb, by rw [← hid2]; exact (hitUpd_id hav c a b).symm,
            hstat, ?_⟩
          rw [hsplit b]
          simp [hafter2]
      · rintro ⟨b, hb, hid, hstat, hafter⟩
        rw [hsplit b] at hafter
        cases hnew : newlyHit hav c a b
        · have hhit : hitBy hav c a b = false := by
            cases hh : hitBy hav c a b
            · rfl
            · exfalso
              have hcatch : catchHit hav c a b = true := by
                have h2 := hh
                simp only [hitBy, Bool.and_eq_true] at h2
                exact h2.2
              have hcontra : newlyHit hav c a b = true := by
                simp [newlyHit, hcatch, hstat]
              rw [hnew] at hcontra
              exact Bool.false_ne_true hcontra
          rw [hhit, Bool.false_or] at hafter
          right
          exact ⟨hitUpd hav c a b, List.mem_map.mpr ⟨b, hb, rfl⟩,
            by rw [hitUpd_id]; exact hid,
            (hitUpd_status_ne hav c a b).mpr ⟨hnew, hstat⟩,
            by rw [caughtAfter_hitUpd]; exact hafter⟩
        · left
          exact List.mem_map.mpr
            ⟨b, List.mem_filter.mpr ⟨hb, hnew⟩, hid⟩
    · simp only [catchLoop, if_neg ha]
      rw [catchLoop_writes_mem hav c hs]
      have ha2 : hunterActive a = false := by
        cases h : hunterActive a
        · rfl
        · exact absurd h ha
      have hcons : ∀ b : Player, caughtAfter hav c (a :: hs) b
          = caughtAfter hav c hs b := fun b => by
        rw [hsplit b]
        simp [hitBy, ha2]
      constructor
      · rintro ⟨b, hb, hid, hstat, hafter⟩
        exact ⟨b, hb, hid, hstat, by rw [hcons b]; exact hafter⟩
      · rintro ⟨b, hb, hid, hstat, hafter⟩
        rw [hcons b] at hafter
        exact ⟨b, hb, hid, hstat, hafter⟩

/-- Uniqueness of the write-through: with distinct snapshot ids, each
runner id is written at most once per pass. -/
theorem catchLoop_writes_count (hav : ℚ → ℚ → ℚ → ℚ → ℚ) (c : Option ℤ) :
    ∀ (hs cur : List Player), (cur.map Player.id).Nodup →
      ∀ bId : String, ((catchLoop hav c hs cur).2).count bId ≤ 1
  | [], cur, _, bId => by
    simp [catchLoop]
  | a :: hs, cur, hnd, bId => by
    by_cases ha : hunterActive a = true
    · simp only [catchLoop, if_pos ha, List.count_append]
      by_cases hw : bId ∈ (innerLoop hav c a cur).2
      · have h1 : ((innerLoop hav c a cur).2).count bId ≤ 1 := by
          rw [innerLoop_snd]
          calc ((cur.filter (newlyHit hav c a)).map Player.id).count bId
              ≤ (cur.map Player.id).count bId :=
                ((cur.filter_sublist).map Player.id).count_le bId
            _ ≤ 1 := List.nodup_iff_count_le_one.mp hnd bId
        have h2 : ((catchLoop hav c hs (innerLoop hav c a cur).1).2).count bId
            = 0 := by
          rw [List.count_eq_zero]
          intro hmem
          rw [catchLoop_writes_mem] at hmem
          rcases hmem with ⟨b2, hb2, hid2, hstat2, -⟩
          rw [innerLoop_fst] at hb2
          rcases List.mem_map.mp hb2 with ⟨b, hb, rfl⟩
          rw [innerLoop_snd] at hw
          rcases List.mem_map.mp hw with ⟨b0, hb0f, hid0⟩
          rcases List.mem_filter.mp hb0f with ⟨hb0, hnew0⟩
          have hbeq : b = b0 := by
            apply List.inj_on_of_nodup_map hnd hb hb0
            rw [hitUpd_id] at hid2
            rw [hid2, hid0]
          subst hbeq
          apply hstat2
          unfold hitUpd
          rw [hnew0]
          exact markCaught_status b
        omega
      · have h1 : ((innerLoop hav c a cur).2).count bId = 0 :=
          List.count_eq_zero.mpr hw
        have h2 := catchLoop_writes_count hav c hs
          ((innerLoop hav c a cur).1)
          (by rw [innerLoop_fst, map_id_hitUpd]; exact hnd) bId
        omega
    · simp only [catchLoop, if_neg ha]
      exact catchLoop_writes_count hav c hs cur hnd bId

/-! ## Lookup and projection helpers -/

theorem lookupP_map_of_id (f : Player → Player)
    (hf : ∀ p, (f p).id = p.id) :
    ∀ (l : List Player) (i : String),
      lookupP (l.map f) i = (lookupP l i).map f
  | [], _ => rfl
  | p :: l, i => by
    simp only [lookupP, List.map_cons, List.find?]
    rw [hf p]
    cases h : (p.id == i)
    · exact lookupP_map_of_id f hf l i
    · rfl

theorem lookupP_mem {ps : List Player} {i : String} {p : Player}
    (h : lookupP ps i = some p) : p ∈ ps ∧ p.id = i := by
  have hm := List.mem_of_find?_eq_some h
  have hp := List.find?_some h
  exact ⟨hm, by simpa using hp⟩

theorem lookupP_of_mem {ps : List Player} {b : Player}
    (hnd : (ps.map Player.id).Nodup) (hb : b ∈ ps) :
    lookupP ps b.id = some b := by
  rcases hfind : lookupP ps b.id with _ | p
  · exfalso
    have := List.find?_eq_none.mp hfind b hb
    simp at this
  · rcases lookupP_mem hfind with ⟨hpmem, hpid⟩
    rw [List.inj_on_of_nodup_map hnd hpmem hb hpid]

theorem projectOne_id (hav : ℚ → ℚ → ℚ → ℚ → ℚ) (v : Option Player)
    (p : Player) : (projectOne hav v p).id = p.id := by
  unfold projectOne
  repeat' split
  all_goals rfl

theorem projectOne_role (hav : ℚ → ℚ → ℚ → ℚ → ℚ) (v : Option Player)
    (p : Player) : (projectOne hav v p).role = p.role := by
  unfold projectOne
  repeat' split
  all_goals rfl

theorem projectOne_status (hav : ℚ → ℚ → ℚ → ℚ → ℚ) (v : Option Player)
    (p : Player) : (projectOne hav v p).status = p.status := by
  unfold projectOne
  repeat' split
  all_goals rfl

theorem afterPass_role (hav : ℚ → ℚ → ℚ → ℚ → ℚ) (c : Option ℤ)
    (hs : List Player) (b : Player) : (afterPass hav c hs b).role = b.role := by
  unfold afterPass
  split <;> rfl

theorem afterPass_lat (hav : ℚ → ℚ → ℚ → ℚ → ℚ) (c : Option ℤ)
    (hs : List Player) (b : Player) : (afterPass hav c hs b).lat = b.lat := by
  unfold afterPass
  split <;> rfl

theorem afterPass_lng (hav : ℚ → ℚ → ℚ → ℚ → ℚ) (c : Option ℤ)
    (hs : List Player) (b : Player) : (afterPass hav c hs b).lng = b.lng := by
  unfold afterPass
  split <;> rfl

theorem stateResponse_zone (hav : ℚ → ℚ → ℚ → ℚ → ℚ) (room : Room)
    (rows : List Player) (q : StateQuery) (nowTs : ℤ) :
    (stateResponse hav room rows q nowTs).1.zoneRadius
      = zoneRadius room nowTs := rfl

theorem stateResponse_writes (hav : ℚ → ℚ → ℚ → ℚ → ℚ) (room : Room)
    (rows : List Player) (q : StateQuery) (nowTs : ℤ) :
    (stateResponse hav room rows q nowTs).2
      = (catchLoop hav (catchMetersOf q.catchMeters) rows rows).2 := rfl

theorem stateResponse_players (hav : ℚ → ℚ → ℚ → ℚ → ℚ) (room : Room)
    (rows : List Player) (q : StateQuery) (nowTs : ℤ) :
    (stateResponse hav room rows q nowTs).1.players
      = (rows.map (afterPass hav (catchMetersOf q.catchMeters) rows)).map
          (projectOne hav ((viewerIdOf q.playerId).bind
            (lookupP (rows.map
              (afterPass hav (catchMetersOf q.catchMeters) rows))))) := by
  simp only [stateResponse, catchPass]
  rw [catchLoop_fst]

/-- A target that no active hunter of the pass catches keeps its status in
every emitted view and is never written through. -/
theorem stays_uncaught (hav : ℚ → ℚ → ℚ → ℚ → ℚ) (room : Room)
    (rows : List Player) (q : StateQuery) (nowTs : ℤ)
    (hnd : (rows.map Player.id).Nodup) (b : Player) (hb : b ∈ rows)
    (hbs : b.status ≠ .caught)
    (hmiss : caughtAfter hav (catchMetersOf q.catchMeters) rows b = false) :
    ((stateResponse hav room rows q nowTs).1.players.all
      (fun w => w.id != b.id || w.status != Status.caught)) = true ∧
    b.id ∉ (stateResponse hav room rows q nowTs).2 := by
  constructor
  · rw [stateResponse_players, List.all_eq_true]
    intro w hw
    rcases List.mem_map.mp hw with ⟨p2, hp2, rfl⟩
    rcases List.mem_map.mp hp2 with ⟨p, hp, rfl⟩
    by_cases hid : p.id = b.id
    · have hpb : p = b := List.inj_on_of_nodup_map hnd hp hb hid
      subst hpb
      rw [afterPass_of_miss hmiss]
      simp [projectOne_status, hbs]
    · simp [projectOne_id, afterPass_id, hid]
  · rw [stateResponse_writes]
    intro hmem
    rw [catchLoop_writes_mem] at hmem
    rcases hmem with ⟨b2, hb2, hid2, -, hafter2⟩
    have hb2b : b2 = b := List.inj_on_of_nodup_map hnd hb2 hb hid2
    subst hb2b
    rw [hmiss] at hafter2
    exact Bool.false_ne_true hafter2

/-! ## Claim theorems -/

/-- C3: for every state request, the returned `zoneRadius` equals
`startRadius` when the room's `startedAt` is null; when `startedAt` is set
(to a positive timestamp, as the start operation does), it equals
`max(20, startRadius − floor((now − startedAt) / (shrinkStepSec × 1000)) ×
shrinkAmount)`, elapsed time measured in milliseconds. -/
theorem C3_zone_radius (hav : ℚ → ℚ → ℚ → ℚ → ℚ) (room : Room)
    (rows : List Player) (q : StateQuery) (nowTs : ℤ) (n s m t : ℤ)
    (hsr : room.startRadius = some n) (hss : room.shrinkStepSec = some s)
    (hsa : room.shrinkAmount = some m) (hv : RoomValid room) :
    (room.startedAt = none →
      (stateResponse hav room rows q nowTs).1.zoneRadius = n) ∧
    (room.startedAt = some t →
      (stateResponse hav room rows q nowTs).1.zoneRadius
        = max 20 (n - ⌊((nowTs - t : ℤ) : ℚ) / ((s * 1000 : ℤ) : ℚ)⌋ * m)) := by
  have hn20 : 20 ≤ n := by
    obtain ⟨n0, h1, h2, -⟩ := hv.1
    rw [hsr] at h1
    obtain rfl := Option.some.inj h1
    exact h2
  have hs1 : 1 ≤ s := by
    obtain ⟨s0, h1, h2, -⟩ := hv.2.1
    rw [hss] at h1
    obtain rfl := Option.some.inj h1
    exact h2
  have hm1 : 1 ≤ m := by
    obtain ⟨m0, h1, h2, -⟩ := hv.2.2.1
    rw [hsa] at h1
    obtain rfl := Option.some.inj h1
    exact h2
  have hnne : n ≠ 0 := by omega
  have hmne : m ≠ 0 := by omega
  constructor
  · intro hnone
    rw [stateResponse_zone]
    simp [zoneRadius, hsr, hnone, hnne]
  · intro hsome
    have ht : 0 < t := by
      rcases hv.2.2.2 with h | ⟨t2, ht2, ht2p⟩
      · rw [hsome] at h
        cases h
      · rw [hsome] at ht2
        obtain rfl := Option.some.inj ht2
        exact ht2p
    have htne : t ≠ 0 := by omega
    rw [stateResponse_zone]
    have hd : (0 : ℤ) < s * 1000 := by omega
    simp only [zoneRadius, hsr, hsome, hss, hsa, Option.getD_some]
    rw [if_neg hnne, if_neg htne, if_neg hmne, max_eq_right hs1,
      intDiv_eq_floor _ _ hd]

/-- C3 witness: a started room (startRadius 800, step 20 s, shrink 50 m)
read 45 seconds after the start has radius `max 20 (800 − 2·50)`. -/
theorem C3_zone_radius_witness :
    (stateResponse havZero sampleRoom [] {} 46000).1.zoneRadius
      = max 20 (800 - ⌊((46000 - 1000 : ℤ) : ℚ) / ((20 * 1000 : ℤ) : ℚ)⌋ * 50) :=
  (C3_zone_radius havZero sampleRoom [] {} 46000 800 20 50 1000 rfl rfl rfl
    ⟨⟨800, rfl, by decide, by decide⟩, ⟨20, rfl, by decide, by decide⟩,
     ⟨50, rfl, by decide, by decide⟩, Or.inr ⟨1000, rfl, by decide⟩⟩).2 rfl

/-- C8: for a started room with fixed configuration, the computed zone
radius is monotonically non-increasing as elapsed time increases, and it
never drops below 20 meters for any elapsed time. -/
theorem C8_zone_monotone (room : Room) (t : ℤ) (hv : RoomValid room)
    (hst : room.startedAt = some t) (n1 n2 : ℤ) (h12 : n1 ≤ n2) :
    zoneRadius room n2 ≤ zoneRadius room n1 ∧ 20 ≤ zoneRadius room n1 := by
  obtain ⟨⟨n, hn, hnlo, -⟩, ⟨s, hs, hslo, -⟩, ⟨m, hm, hmlo, -⟩, hstv⟩ := hv
  have ht : 0 < t := by
    rcases hstv with h | ⟨t2, ht2, ht2p⟩
    · rw [hst] at h
      cases h
    · rw [hst] at ht2
      obtain rfl := Option.some.inj ht2
      exact ht2p
  have htne : t ≠ 0 := by omega
  have hnne : n ≠ 0 := by omega
  have hmne : m ≠ 0 := by omega
  have hz : ∀ nw : ℤ, zoneRadius room nw
      = max 20 (n - (nw - t) / (s * 1000) * m) := by
    intro nw
    simp only [zoneRadius, hn, hst, hs, hm, Option.getD_some]
    rw [if_neg hnne, if_neg htne, if_neg hmne, max_eq_right hslo]
  constructor
  · rw [hz n1, hz n2]
    have hd : (0 : ℤ) < s * 1000 := by omega
    have hsteps : (n1 - t) / (s * 1000) ≤ (n2 - t) / (s * 1000) :=
      Int.ediv_le_ediv hd (by omega)
    have hsub : n - (n2 - t) / (s * 1000) * m ≤ n - (n1 - t) / (s * 1000) * m := by
      have hmul := mul_le_mul_of_nonneg_right hsteps (by omega : (0 : ℤ) ≤ m)
      omega
    exact max_le_max le_rfl hsub
  · rw [hz n1]
    exact le_max_left _ _

/-- C8 witness: for the sample room, the radius at a later time is no
larger than at an earlier time, and the earlier radius is at least 20. -/
theorem C8_zone_monotone_witness :
    zoneRadius sampleRoom 46000 ≤ zoneRadius sampleRoom 21000 ∧
    20 ≤ zoneRadius sampleRoom 21000 :=
  C8_zone_monotone sampleRoom 1000
    ⟨⟨800, rfl, by decide, by decide⟩, ⟨20, rfl, by decide, by decide⟩,
     ⟨50, rfl, by decide, by decide⟩, Or.inr ⟨1000, rfl, by decide⟩⟩
    rfl 21000 46000 (by decide)

/-- C5 (counterexample): a present but non-numeric `catchMeters` query
parameter does not default to 30 — `parseInt('abc')` is NaN, under which
no distance is within the threshold, unlike the threshold 30. -/
theorem C5_threshold_counterexample :
    catchMetersOf (some ("abc")) ≠ some 30 ∧
    catchMetersOf (some ("abc")) = none ∧
    leThresh (some 0) (catchMetersOf (some ("abc"))) = false ∧
    leThresh (some 0) (some 30) = true := by decide

/-- C5 (amended): the threshold used is `parseInt` of the `catchMeters`
query parameter; when the parameter is absent or empty the threshold is 30;
a present non-numeric parameter parses to NaN, under which `d <= catchMeters`
holds for no distance. -/
theorem C5_threshold (s : String) (d : Option ℚ) (hs : s ≠ ("")) :
    catchMetersOf none = some 30 ∧ catchMetersOf (some ("")) = some 30 ∧
    catchMetersOf (some s) = parseIntStr s ∧ leThresh d none = false := by
  refine ⟨by decide, by decide, ?_, ?_⟩
  · simp [catchMetersOf, hs]
  · cases d <;> rfl

/-- C5 witness: the amended claim at the parameter string `45` and the
distance 0. -/
theorem C5_threshold_witness :
    catchMetersOf none = some 30 ∧ catchMetersOf (some ("")) = some 30 ∧
    catchMetersOf (some ("45")) = parseIntStr ("45") ∧
    leThresh (some 0) none = false :=
  C5_threshold ("45") (some 0) (by decide)

/-- C6 (counterexample): a truthy non-numeric `startRadius` in the
room-creation body parses to NaN, which passes through `clamp` unclamped
(and is stored as NULL), so the stored value does not lie in
`[20, 100000]`. -/
theorem C6_config_counterexample :
    (createRoomConfig (.str ("abc")) (.num 30) (.num 50)).1 = none ∧
    storedInRange (createRoomConfig (.str ("abc")) (.num 30) (.num 50)).1
      20 100000 = false := by decide

/-- C6 (amended): for every room-creation request, each configuration field
whose value (after the falsy-default) parses to a number is stored clamped
into its range: `startRadius` into `[20, 100000]`, `shrinkStepSec` into
`[1, 86400]`, `shrinkAmount` into `[1, 100000]`.  A truthy non-numeric
value parses to NaN and escapes the clamp. -/
theorem C6_config_clamped (sr ss sa : JVal) (n1 n2 n3 : ℤ)
    (h1 : parseIntJs (jsOr sr (.num 800)) = some n1)
    (h2 : parseIntJs (jsOr ss (.num 20)) = some n2)
    (h3 : parseIntJs (jsOr sa (.num 50)) = some n3) :
    storedInRange (createRoomConfig sr ss sa).1 20 100000 = true ∧
    storedInRange (createRoomConfig sr ss sa).2.1 1 86400 = true ∧
    storedInRange (createRoomConfig sr ss sa).2.2 1 100000 = true := by
  have key : ∀ (v : Option ℤ) (k : ℤ) (lo hi : ℤ), v = some k → lo ≤ hi →
      storedInRange (clamp v lo hi) lo hi = true := by
    intro v k lo hi hv hlohi
    subst hv
    simp only [clamp, jsMinI, jsMaxI, storedInRange, Bool.and_eq_true,
      decide_eq_true_eq]
    exact ⟨le_max_left _ _, max_le hlohi (min_le_left _ _)⟩
  exact ⟨key _ _ _ _ h1 (by decide), key _ _ _ _ h2 (by decide),
    key _ _ _ _ h3 (by decide)⟩

/-- C6 witness: numeric inputs 500 / 30 / 7 are stored inside the three
ranges. -/
theorem C6_config_clamped_witness :
    storedInRange (createRoomConfig (.num 500) (.num 30) (.num 7)).1
      20 100000 = true ∧
    storedInRange (createRoomConfig (.num 500) (.num 30) (.num 7)).2.1
      1 86400 = true ∧
    storedInRange (createRoomConfig (.num 500) (.num 30) (.num 7)).2.2
      1 100000 = true :=
  C6_config_clamped (.num 500) (.num 30) (.num 7) 500 30 7
    (by decide) (by decide) (by decide)

/-- C9: for every state request with no `viewerId`, every emitted player
view is exactly `{id, name, role, status}` — it contains no `lat`, no
`lng`, no `lastSeen`, and no distance field of any kind. -/
theorem C9_anonymous_minimal (hav : ℚ → ℚ → ℚ → ℚ → ℚ) (room : Room)
    (rows : List Player) (cm : Option String) (nowTs : ℤ) :
    (stateResponse hav room rows { playerId := none, catchMeters := cm }
        nowTs).1.players
      = (catchPass hav (catchMetersOf cm) rows).1.map
          (fun p => { id := p.id, name := p.name, role := p.role,
                      status := p.status }) ∧
    ((stateResponse hav room rows { playerId := none, catchMeters := cm }
        nowTs).1.players.all
      (fun w => w.lat.isNone && w.lng.isNone && w.lastSeen.isNone &&
        w.distanceToViewer.isNone && w.distanceToRunner.isNone)) = true := by
  have hview : (stateResponse hav room rows
      { playerId := none, catchMeters := cm } nowTs).1.players
      = (catchPass hav (catchMetersOf cm) rows).1.map (projectOne hav none) :=
    rfl
  constructor
  · rw [hview]
    exact List.map_congr_left fun p _ => rfl
  · rw [hview, List.all_eq_true]
    intro w hw
    rcases List.mem_map.mp hw with ⟨p, -, rfl⟩
    rfl

/-- C7: a pair of players with any of the four coordinate components
missing has distance Infinity, for which the threshold comparison is false;
consequently a runner all of whose hunter pairings have a missing component
is never transitioned to caught and never written through, for any request
threshold. -/
theorem C7_unknown_infinite (hav : ℚ → ℚ → ℚ → ℚ → ℚ) (room : Room)
    (rows : List Player) (q : StateQuery) (nowTs : ℤ)
    (la lga lb lgb : Option ℚ)
    (hmiss : la = none ∨ lga = none ∨ lb = none ∨ lgb = none)
    (b : Player) (hnd : (rows.map Player.id).Nodup) (hb : b ∈ rows)
    (hbs : b.status ≠ .caught)
    (hfar : ∀ a ∈ rows, a.role = .hunter →
      a.lat = none ∨ a.lng = none ∨ b.lat = none ∨ b.lng = none) :
    distMeters hav la lga lb lgb = none ∧
    leThresh (distMeters hav la lga lb lgb)
      (catchMetersOf q.catchMeters) = false ∧
    ((stateResponse hav room rows q nowTs).1.players.all
      (fun w => w.id != b.id || w.status != Status.caught)) = true ∧
    b.id ∉ (stateResponse hav room rows q nowTs).2 := by
  have hdm : ∀ (x y z w : Option ℚ),
      (x = none ∨ y = none ∨ z = none ∨ w = none) →
      distMeters hav x y z w = none := by
    intro x y z w h
    cases x <;> cases y <;> cases z <;> cases w <;> simp_all [distMeters]
  have hleF : ∀ c : Option ℤ, leThresh none c = false := by
    intro c
    cases c <;> rfl
  have hall : ∀ a ∈ rows,
      hitBy hav (catchMetersOf q.catchMeters) a b = false := by
    intro a ha2
    cases hact : hunterActive a
    · simp [hitBy, hact]
    · have hparts : a.role = .hunter ∧ a.lat.isSome = true := by
        have h2 := hact
        simp only [hunterActive, Bool.and_eq_true, decide_eq_true_eq] at h2
        exact h2
      rcases hfar a ha2 hparts.1 with h | h | h | h
      · rw [h] at hparts
        simp at hparts
      · have hd := hdm a.lat a.lng b.lat b.lng (Or.inr (Or.inl h))
        simp [hitBy, catchHit, hd, hleF]
      · simp [hitBy, catchHit, h]
      · have hd := hdm a.lat a.lng b.lat b.lng (Or.inr (Or.inr (Or.inr h)))
        simp [hitBy, catchHit, hd, hleF]
  have hmiss2 : caughtAfter hav (catchMetersOf q.catchMeters) rows b
      = false := by
    unfold caughtAfter
    rw [List.any_eq_false]
    intro a ha2
    rw [hall a ha2]
    exact Bool.false_ne_true
  obtain ⟨hview, hwr⟩ :=
    stays_uncaught hav room rows q nowTs hnd b hb hbs hmiss2
  exact ⟨hdm _ _ _ _ hmiss,
    by rw [hdm _ _ _ _ hmiss]; exact hleF _, hview, hwr⟩

/-- C7 witness: a hunter whose longitude is unknown never catches the
co-located runner; the distance of the pair with a missing component is
Infinity. -/
theorem C7_unknown_infinite_witness :
    distMeters havZero none (some 1) (some 2) (some 3) = none ∧
    leThresh (distMeters havZero none (some 1) (some 2) (some 3))
      (catchMetersOf none) = false ∧
    ((stateResponse havZero sampleRoom [sampleHalfHunter, sampleRunner] {}
        0).1.players.all
      (fun w => w.id != sampleRunner.id || w.status != Status.caught))
        = true ∧
    sampleRunner.id ∉
      (stateResponse havZero sampleRoom [sampleHalfHunter, sampleRunner]
        {} 0).2 :=
  C7_unknown_infinite havZero sampleRoom [sampleHalfHunter, sampleRunner]
    {} 0 none (some 1) (some 2) (some 3) (Or.inl rfl) sampleRunner
    (by decide) (by decide) (by decide) (by decide)

/-- C1: in a state request with a numeric threshold, for an ordered
(hunter, runner) pair with all four coordinates known: if the haversine
distance is within the threshold and the runner is not already caught, the
runner's status is caught in the emitted result and its id is written
through; and when no hunter of the snapshot is within the threshold of the
runner (each such pair's distance exceeds it), that runner is never
transitioned and never written. -/
theorem C1_catch_detection (hav : ℚ → ℚ → ℚ → ℚ → ℚ) (room : Room)
    (rows : List Player) (q : StateQuery) (nowTs : ℤ) (c : ℤ)
    (hc : catchMetersOf q.catchMeters = some c)
    (hnd : (rows.map Player.id).Nodup) (a b : Player)
    (ha : a ∈ rows) (hb : b ∈ rows)
    (har : a.role = .hunter) (hbr : b.role = .runner)
    (aLat aLng bLat bLng : ℚ)
    (hal : a.lat = some aLat) (halg : a.lng = some aLng)
    (hbl : b.lat = some bLat) (hblg : b.lng = some bLng) :
    (hav aLat aLng bLat bLng ≤ (c : ℚ) → b.status ≠ .caught →
      ((stateResponse hav room rows q nowTs).1.players.any
        (fun w => w.id == b.id && w.status == Status.caught)) = true ∧
      b.id ∈ (stateResponse hav room rows q nowTs).2) ∧
    ((∀ a2 ∈ rows, a2.role = .hunter →
        leThresh (distMeters hav a2.lat a2.lng b.lat b.lng)
          (some c) = false) →
      b.status ≠ .caught →
      ((stateResponse hav room rows q nowTs).1.players.all
        (fun w => w.id != b.id || w.status != Status.caught)) = true ∧
      b.id ∉ (stateResponse hav room rows q nowTs).2) := by
  have haneb : a.id ≠ b.id := by
    intro h
    have hab : a = b := List.inj_on_of_nodup_map hnd ha hb h
    rw [hab, hbr] at har
    cases har
  constructor
  · intro hle hbs
    have hhit : hitBy hav (catchMetersOf q.catchMeters) a b = true := by
      rw [hc]
      simp [hitBy, hunterActive, catchHit, har, hbr, hal, hbl, haneb,
        distMeters, halg, hblg, leThresh, hle]
    have hafter : caughtAfter hav (catchMetersOf q.catchMeters) rows b
        = true := by
      unfold caughtAfter
      rw [List.any_eq_true]
      exact ⟨a, ha, hhit⟩
    constructor
    · rw [stateResponse_players, List.any_eq_true]
      refine ⟨projectOne hav
          ((viewerIdOf q.playerId).bind (lookupP (rows.map
            (afterPass hav (catchMetersOf q.catchMeters) rows))))
          (afterPass hav (catchMetersOf q.catchMeters) rows b),
        List.mem_map.mpr ⟨afterPass hav (catchMetersOf q.catchMeters) rows b,
          List.mem_map.mpr ⟨b, hb, rfl⟩, rfl⟩, ?_⟩
      rw [Bool.and_eq_true, beq_iff_eq, beq_iff_eq, projectOne_id,
        projectOne_status, afterPass_id, afterPass_of_hit hafter]
      exact ⟨rfl, markCaught_status b⟩
    · rw [stateResponse_writes, catchLoop_writes_mem]
      exact ⟨b, hb, rfl, hbs, hafter⟩
  · intro hfarAll hbs
    have hmiss2 : caughtAfter hav (catchMetersOf q.catchMeters) rows b
        = false := by
      rw [hc]
      unfold caughtAfter
      rw [List.any_eq_false]
      intro a2 ha2
      cases hact : hunterActive a2
      · simp [hitBy, hact]
      · have hrole : a2.role = .hunter := by
          have h2 := hact
          simp only [hunterActive, Bool.and_eq_true, decide_eq_true_eq] at h2
          exact h2.1
        have hlef := hfarAll a2 ha2 hrole
        simp [hitBy, catchHit, hlef]
    exact stays_uncaught hav room rows q nowTs hnd b hb hbs hmiss2

/-- C1 witness: with the degenerate distance 0 and default threshold 30, a
co-located hunter and runner produce a caught runner in the result and one
write-through of the runner's id. -/
theorem C1_catch_detection_witness :
    ((stateResponse havZero sampleRoom [sampleHunter, sampleRunner] {}
        0).1.players.any
      (fun w => w.id == sampleRunner.id && w.status == Status.caught))
        = true ∧
    sampleRunner.id ∈
      (stateResponse havZero sampleRoom [sampleHunter, sampleRunner]
        {} 0).2 :=
  (C1_catch_detection havZero sampleRoom [sampleHunter, sampleRunner] {} 0
    30 (by decide) (by decide) sampleHunter sampleRunner (by decide)
    (by decide) rfl rfl 10 10 10 10 rfl rfl rfl rfl).1
    (by decide) (by decide)

/-- C4: catch status is monotonic within a state computation: a runner
caught at the start of (or during, i.e. from any intermediate map of) the
detection pass is never reverted to ready, and the persisted write for a
given runner id happens at most once per request. -/
theorem C4_catch_monotone (hav : ℚ → ℚ → ℚ → ℚ → ℚ) (c : Option ℤ)
    (room : Room) (q : StateQuery) (nowTs : ℤ) (rows : List Player)
    (hnd : (rows.map Player.id).Nodup)
    (hs cur : List Player) (hndc : (cur.map Player.id).Nodup)
    (b : Player) (hbcur : b ∈ cur) (hbc : b.status = .caught)
    (b0 : Player) (hb0 : b0 ∈ rows) (hb0c : b0.status = .caught)
    (bId : String) :
    ((catchLoop hav c hs cur).1.all
      (fun p => p.id != b.id || p.status == Status.caught)) = true ∧
    ((stateResponse hav room rows q nowTs).1.players.all
      (fun w => w.id != b0.id || w.status == Status.caught)) = true ∧
    (stateResponse hav room rows q nowTs).2.count bId ≤ 1 := by
  refine ⟨?_, ?_, ?_⟩
  · rw [catchLoop_fst, List.all_eq_true]
    intro p2 hp2
    rcases List.mem_map.mp hp2 with ⟨p, hp, rfl⟩
    by_cases hid : p.id = b.id
    · have hpb : p = b := List.inj_on_of_nodup_map hndc hp hbcur hid
      subst hpb
      simp [afterPass_id, afterPass_status_of_caught hbc]
    · simp [afterPass_id, hid]
  · rw [stateResponse_players, List.all_eq_true]
    intro w hw
    rcases List.mem_map.mp hw with ⟨p2, hp2, rfl⟩
    rcases List.mem_map.mp hp2 with ⟨p, hp, rfl⟩
    by_cases hid : p.id = b0.id
    · have hpb : p = b0 := List.inj_on_of_nodup_map hnd hp hb0 hid
      subst hpb
      simp [projectOne_id, projectOne_status, afterPass_id,
        afterPass_status_of_caught hb0c]
    · simp [projectOne_id, afterPass_id, hid]
  · rw [stateResponse_writes]
    exact catchLoop_writes_count hav (catchMetersOf q.catchMeters) rows rows
      hnd bId

/-- C4 witness: with an already-caught runner in the snapshot next to an
in-range hunter, the caught status survives the pass and the response, and
no id is written twice. -/
theorem C4_catch_monotone_witness :
    ((catchLoop havZero (some 30) [sampleHunter, sampleCaught]
        [sampleHunter, sampleCaught]).1.all
      (fun p => p.id != sampleCaught.id || p.status == Status.caught))
        = true ∧
    ((stateResponse havZero sampleRoom [sampleHunter, sampleCaught] {}
        0).1.players.all
      (fun w => w.id != sampleCaught.id || w.status == Status.caught))
        = true ∧
    (stateResponse havZero sampleRoom [sampleHunter, sampleCaught] {}
      0).2.count (sampleCaught.id) ≤ 1 :=
  C4_catch_monotone havZero (some 30) sampleRoom {} 0
    [sampleHunter, sampleCaught] (by decide)
    [sampleHunter, sampleCaught] [sampleHunter, sampleCaught] (by decide)
    sampleCaught (by decide) rfl sampleCaught (by decide) rfl
    (sampleCaught.id)

/-- What `JSON.stringify` emits for the guarded rounded-distance expression
of the projection: exactly the rounded distance when all four coordinates
are known, and `null` otherwise (either because the guard chose `null`, or
because a missing longitude made the distance Infinity, which serialises as
`null`). -/
theorem jsonNumber_distField (hav : ℚ → ℚ → ℚ → ℚ → ℚ)
    (vlat vlng plat plng : Option ℚ) :
    jsonNumber (if vlat.isSome && plat.isSome then
        jround (distMeters hav vlat vlng plat plng) else .jnull)
      = (distMeters hav vlat vlng plat plng).map roundJs := by
  cases vlat <;> cases vlng <;> cases plat <;> cases plng <;>
    simp [distMeters, jround, jsonNumber]

/-- C2: for every state request whose `viewerId` identifies a runner in the
room, each emitted view of a hunter contains no `lat` and no `lng` field
but does contain a `distanceToRunner` field; and the emitted
`distanceToRunner` of each hunter equals the haversine distance from the
viewer to that hunter rounded half-up when both locations are known, and
`null` (after JSON serialisation) when any coordinate is unknown. -/
theorem C2_runner_projection (hav : ℚ → ℚ → ℚ → ℚ → ℚ) (room : Room)
    (rows : List Player) (q : StateQuery) (nowTs : ℤ)
    (hnd : (rows.map Player.id).Nodup) (vid : String)
    (hq : q.playerId = some vid) (hvne : vid ≠ (""))
    (v0 : Player) (hv0 : lookupP rows vid = some v0)
    (hrole : v0.role = .runner) :
    (∀ w ∈ (stateResponse hav room rows q nowTs).1.players,
      w.role = .hunter → w.lat = none ∧ w.lng = none ∧
        w.distanceToRunner.isSome = true) ∧
    (∀ p ∈ rows, p.role = .hunter →
      ∃ w ∈ (stateResponse hav room rows q nowTs).1.players,
        w.id = p.id ∧ w.lat = none ∧ w.lng = none ∧
        (w.distanceToRunner.map jsonNumber)
          = some ((distMeters hav v0.lat v0.lng p.lat p.lng).map
              (fun dq => ⌊dq + 1 / 2⌋))) := by
  obtain ⟨hv0mem, hv0id⟩ := lookupP_mem hv0
  have hviewer : (viewerIdOf q.playerId).bind
      (lookupP (rows.map (afterPass hav (catchMetersOf q.catchMeters) rows)))
      = some (afterPass hav (catchMetersOf q.catchMeters) rows v0) := by
    rw [hq]
    simp only [viewerIdOf, if_neg hvne, Option.some_bind]
    rw [lookupP_map_of_id _
      (fun p => afterPass_id hav (catchMetersOf q.catchMeters) rows p), hv0]
    rfl
  have hv0ne : ∀ p ∈ rows, p.role = .hunter → p.id ≠ v0.id := by
    intro p hp hph heq
    have hpv : p = v0 := List.inj_on_of_nodup_map hnd hp hv0mem heq
    rw [hpv, hrole] at hph
    cases hph
  have hfields : ∀ p : Player, p.role = .hunter → p.id ≠ v0.id →
      (projectOne hav (some (afterPass hav (catchMetersOf q.catchMeters)
          rows v0)) (afterPass hav (catchMetersOf q.catchMeters) rows p)).lat
        = none ∧
      (projectOne hav (some (afterPass hav (catchMetersOf q.catchMeters)
          rows v0)) (afterPass hav (catchMetersOf q.catchMeters) rows p)).lng
        = none ∧
      (projectOne hav (some (afterPass hav (catchMetersOf q.catchMeters)
          rows v0)) (afterPass hav (catchMetersOf q.catchMeters) rows
            p)).distanceToRunner
        = some (if v0.lat.isSome && p.lat.isSome then
            jround (distMeters hav v0.lat v0.lng p.lat p.lng) else .jnull) ∧
      (projectOne hav (some (afterPass hav (catchMetersOf q.catchMeters)
          rows v0)) (afterPass hav (catchMetersOf q.catchMeters) rows p)).id
        = p.id ∧
      (projectOne hav (some (afterPass hav (catchMetersOf q.catchMeters)
          rows v0)) (afterPass hav (catchMetersOf q.catchMeters) rows
            p)).role = p.role := by
    intro p hph hne
    have h1 : ¬((afterPass hav (catchMetersOf q.catchMeters) rows v0).role
        = Role.hunter) := by
      rw [afterPass_role, hrole]
      intro h
      cases h
    have h2 : ¬((afterPass hav (catchMetersOf q.catchMeters) rows p).id
        = (afterPass hav (catchMetersOf q.catchMeters) rows v0).id) := by
      rw [afterPass_id, afterPass_id]
      exact hne
    have h3 : (afterPass hav (catchMetersOf q.catchMeters) rows p).role
        = Role.hunter := by
      rw [afterPass_role]
      exact hph
    simp only [projectOne]
    rw [if_neg h1, if_neg h2, if_pos h3]
    refine ⟨rfl, rfl, ?_, afterPass_id _ _ _ _, afterPass_role _ _ _ _⟩
    rw [afterPass_lat, afterPass_lng, afterPass_lat, afterPass_lng]
  constructor
  · intro w hw hwrole
    rw [stateResponse_players, hviewer] at hw
    rcases List.mem_map.mp hw with ⟨p2, hp2, rfl⟩
    rcases List.mem_map.mp hp2 with ⟨p, hp, rfl⟩
    have hph : p.role = .hunter := by
      rw [projectOne_role, afterPass_role] at hwrole
      exact hwrole
    obtain ⟨f1, f2, f3, -, -⟩ := hfields p hph (hv0ne p hp hph)
    exact ⟨f1, f2, by rw [f3]; rfl⟩
  · intro p hp hph
    obtain ⟨f1, f2, f3, f4, -⟩ := hfields p hph (hv0ne p hp hph)
    refine ⟨projectOne hav (some (afterPass hav (catchMetersOf q.catchMeters)
        rows v0)) (afterPass hav (catchMetersOf q.catchMeters) rows p),
      ?_, f4, f1, f2, ?_⟩
    · rw [stateResponse_players, hviewer]
      exact List.mem_map.mpr
        ⟨afterPass hav (catchMetersOf q.catchMeters) rows p,
          List.mem_map.mpr ⟨p, hp, rfl⟩, rfl⟩
    · rw [f3, Option.map_some', jsonNumber_distField]
      cases distMeters hav v0.lat v0.lng p.lat p.lng
      · rfl
      · simp [roundJs_eq_floor]

/-- C2 witness: the runner `R1` viewing a room with one hunter at known
coordinates sees that hunter without coordinates and with the rounded
viewer-to-hunter distance. -/
theorem C2_runner_projection_witness :
    (∀ w ∈ (stateResponse havZero sampleRoom [sampleHunter, sampleRunner]
        { playerId := some ("R1") } 0).1.players,
      w.role = .hunter → w.lat = none ∧ w.lng = none ∧
        w.distanceToRunner.isSome = true) ∧
    (∀ p ∈ [sampleHunter, sampleRunner], p.role = .hunter →
      ∃ w ∈ (stateResponse havZero sampleRoom [sampleHunter, sampleRunner]
          { playerId := some ("R1") } 0).1.players,
        w.id = p.id ∧ w.lat = none ∧ w.lng = none ∧
        (w.distanceToRunner.map jsonNumber)
          = some ((distMeters havZero sampleRunner.lat sampleRunner.lng
              p.lat p.lng).map (fun dq => ⌊dq + 1 / 2⌋))) :=
  C2_runner_projection havZero sampleRoom [sampleHunter, sampleRunner]
    { playerId := some ("R1") } 0 (by decide) ("R1") rfl (by decide)
    sampleRunner (by decide) rfl

/-- C10 (code bug): POST /location accepts the body
`{playerId: 'P1', lat: null, lng: 20}` because the global `isFinite`
coerces `null` to `0`; the write stores `lat` NULL with `lng` 20, so the
snapshot row for that player has `lat` null and `lng` non-null, refuting
the claimed lat-null-iff-lng-null invariant (and the claim that the
endpoint rejects any write whose coordinates are not both finite). -/
theorem C10_null_coordinate_bug :
    isFiniteJs JVal.null = true ∧
    postLocation (JVal.str ("P1")) JVal.null (JVal.num 20)
      = some (none, some 20) ∧
    (toPlayer (mkRow ("P1") ("Bob") Role.runner none (some 5)
        (some (none, some 20, 7)))).lat = none ∧
    (toPlayer (mkRow ("P1") ("Bob") Role.runner none (some 5)
        (some (none, some 20, 7)))).lng = some 20 ∧
    ¬((toPlayer (mkRow ("P1") ("Bob") Role.runner none (some 5)
        (some (none, some 20, 7)))).lat = none ↔
      (toPlayer (mkRow ("P1") ("Bob") Role.runner none (some 5)
        (some (none, some 20, 7)))).lng = none) := by decide

end StreetHunt
